import Mathlib

/-!
# Diffusion C examples: a shallow embedding and its verified properties

The three example programs `int64-topics.c`, `send-request-to-session.c` and
`topic-views-get.c` are clients of the Diffusion SDK.  Each program is embedded as a
pure function that returns the ordered list of externally visible calls it makes
(console output, `sleep`, SDK requests).  Memory management calls (`buf_free`, `free`,
`calloc`) have no visible effect and are left out, except that the capacity handed to
`calloc` is checked where `sprintf` writes into it.

SDK functions whose bodies live in the SDK and not in the examples (the value readers and
writers) are parameters of the embedded functions.
-/

namespace Diffusion

/-- Payload bytes held by a `BUF_T` or a `DIFFUSION_VALUE_T`. -/
abbrev Bytes := List Nat

/-- The datatypes of `diffusion.h` used by the examples. -/
inductive DIFFUSION_DATATYPE
  | DATATYPE_INT64
  | DATATYPE_STRING
  deriving DecidableEq, Repr

/-- The topic types of `diffusion.h` used by the examples. -/
inductive TOPIC_TYPE
  | TOPIC_TYPE_INT64
  | TOPIC_TYPE_STRING
  deriving DecidableEq, Repr

/-- The status a handler hands back to the SDK. -/
inductive HANDLER_RESULT
  | HANDLER_SUCCESS
  | HANDLER_FAILURE
  deriving DecidableEq, Repr

/-- The error object filled in by a failed SDK read; `description` is what
`get_diffusion_api_error_description` returns for it. -/
structure DIFFUSION_API_ERROR where
  description : String
  deriving DecidableEq, Repr

/-- The function `get_diffusion_api_error_description` of the SDK. -/
def get_diffusion_api_error_description (e : DIFFUSION_API_ERROR) : String :=
  e.description

/-- Session identifiers (`session->id`). -/
abbrev SESSION_ID_T := Nat

/-- The session handle; only its identifier is read by the examples. -/
structure SESSION_T where
  id : SESSION_ID_T
  deriving DecidableEq, Repr

/-- The responder handle the SDK passes to a request handler. -/
abbrev DIFFUSION_RESPONDER_HANDLE_T := Nat

/-- The fields of `SEND_REQUEST_TO_SESSION_PARAMS_T` that the example sets, apart from
the `on_response` function pointer. -/
structure SEND_REQUEST_TO_SESSION_PARAMS_T where
  recipient_session : SESSION_ID_T
  path : String
  request : Bytes
  request_datatype : DIFFUSION_DATATYPE
  response_datatype : DIFFUSION_DATATYPE
  deriving DecidableEq, Repr

/-- The externally visible calls made by the example programs, in program order. -/
inductive Call
  | printf (text : String)
  | fprintf_stderr (text : String)
  | sleep (seconds : Nat)
  | add_topic_from_specification (topic_path : String) (topic_type : TOPIC_TYPE)
  | add_stream (topic_path : String) (datatype : DIFFUSION_DATATYPE)
  | subscribe (topic_selector : String)
  | diffusion_topic_update_set (topic_path : String) (datatype : DIFFUSION_DATATYPE)
      (update : Bytes)
  | set_request_stream (path : String) (request_datatype response_datatype : DIFFUSION_DATATYPE)
  | send_request_to_session (session : SESSION_T) (params : SEND_REQUEST_TO_SESSION_PARAMS_T)
  | diffusion_respond_to_request (session : SESSION_T) (handle : DIFFUSION_RESPONDER_HANDLE_T)
      (response : Bytes)
  | diffusion_topic_views_create_topic_view (view : String) (specification : String)
  | diffusion_topic_views_list_topic_views
  | diffusion_topic_views_get_topic_view (name : String)
  | session_close (session : SESSION_T)
  | session_free (session : SESSION_T)
  | show_usage
  deriving DecidableEq, Repr

/-- The exit codes of `stdlib.h`. -/
inductive EXIT_CODE
  | EXIT_SUCCESS
  | EXIT_FAILURE
  deriving DecidableEq, Repr

/-- What a run of `main` does: the calls it makes and its exit code. -/
structure MainRun where
  calls : List Call
  exit : EXIT_CODE
  deriving DecidableEq, Repr

/-- What a handler does: the calls it makes and the status it returns. -/
structure HandlerRun where
  calls : List Call
  status : HANDLER_RESULT
  deriving DecidableEq, Repr

end Diffusion

/-! ## `features/topics/int64-topics.c` -/

namespace Int64Topics

open Diffusion
open Diffusion.HANDLER_RESULT Diffusion.DIFFUSION_DATATYPE Diffusion.TOPIC_TYPE

/-- The constant `sleep_timeout`. -/
def sleep_timeout : Nat := 1

/-- The handler `on_value` of the value stream.  `read` is the SDK function
`read_diffusion_int64_value`; `old_value` is `none` for a null pointer.  The printed
number is the decimal text `printf` produces for `PRId64`. -/
def on_value (read : Bytes → Except DIFFUSION_API_ERROR Int)
    (old_value : Option Bytes) (new_value : Bytes) : HandlerRun :=
  let new_part (before : List Call) : HandlerRun :=
    match read new_value with
    | .error new_value_error =>
      { calls := before ++ [Call.fprintf_stderr ("Error parsing int64 new value: "
            ++ get_diffusion_api_error_description new_value_error ++ "\n")],
        status := HANDLER_SUCCESS }
    | .ok new_int64_value =>
      { calls := before ++ [Call.printf ("New int64 value: "
            ++ toString new_int64_value ++ "\n\n")],
        status := HANDLER_SUCCESS }
  match old_value with
  | some old =>
    match read old with
    | .error old_value_error =>
      { calls := [Call.fprintf_stderr ("Error parsing int64 old value: "
            ++ get_diffusion_api_error_description old_value_error ++ "\n")],
        status := HANDLER_SUCCESS }
    | .ok old_int64_value =>
      new_part [Call.printf ("Old int64 value: " ++ toString old_int64_value ++ "\n")]
  | none => new_part []

/-- The line `on_value` prints for a decoded old value. -/
def oldReport (m : Int) : Call :=
  Call.printf ("Old int64 value: " ++ toString m ++ "\n")

/-- The line `on_value` prints for a decoded new value. -/
def newReport (n : Int) : Call :=
  Call.printf ("New int64 value: " ++ toString n ++ "\n\n")

/-- A reader used to run the handler on concrete payloads: a one-byte payload is the
number it holds, anything else is rejected. -/
def sampleRead : Bytes → Except DIFFUSION_API_ERROR Int
  | [b] => .ok (Int.ofNat b)
  | _ => .error { description := "not an int64" }

/-- The function `dispatch_int64_update`.  `write` is the SDK function
`write_diffusion_int64_value` (its flag and the buffer contents after the call, given the
contents before); `value` is what the call of `rand()` returned. -/
def dispatch_int64_update (write : Int → Bytes → Bool × Bytes) (value : Int)
    (topic_path : String) : List Call :=
  let buf : Bytes := []
  match write value buf with
  | (false, _) => [Call.fprintf_stderr "Unable to write the int64 update\n"]
  | (true, buf) =>
    [Call.diffusion_topic_update_set topic_path DATATYPE_INT64 buf, Call.sleep 1]

/-- The loop `for(int i = 1; i <= 120; i++)` of `main`, entered with the given `i`.
`rand i` is the value `rand()` returns in the iteration with counter `i`. -/
def update_loop (write : Int → Bytes → Bool × Bytes) (rand : Nat → Int)
    (topic_path : String) (i : Nat) : List Call :=
  if i ≤ 120 then
    dispatch_int64_update write (rand i) topic_path
      ++ Call.sleep sleep_timeout :: update_loop write rand topic_path (i + 1)
  else []
termination_by 121 - i

/-- The function `tear_down`. -/
def tear_down (session : SESSION_T) : List Call :=
  [Call.session_close session, Call.session_free session]

/-- The function `main`.  `options_ok` says that `parse_cmdline` succeeded and no help was
asked for; `session` is the result of `session_create`, an error message when it failed. -/
def main (write : Int → Bytes → Bool × Bytes) (rand : Nat → Int) (options_ok : Bool)
    (session : Except String SESSION_T) : MainRun :=
  if !options_ok then
    { calls := [Call.show_usage], exit := EXIT_CODE.EXIT_FAILURE }
  else
    let topic_path := "int64-example"
    match session with
    | .error message =>
      { calls := [Call.fprintf_stderr "TEST: Failed to create session\n",
                  Call.fprintf_stderr ("ERR : " ++ message ++ "\n")],
        exit := EXIT_CODE.EXIT_FAILURE }
    | .ok session =>
      { calls :=
          [Call.add_topic_from_specification topic_path TOPIC_TYPE_INT64,
           Call.sleep 5,
           Call.add_stream topic_path DATATYPE_INT64,
           Call.subscribe topic_path,
           Call.sleep 5]
          ++ update_loop write rand topic_path 1
          ++ tear_down session,
        exit := EXIT_CODE.EXIT_SUCCESS }

/-- The seconds of `sleep` between each `diffusion_topic_update_set` call and the next
one; `since` is the time slept since the last such call, `none` before the first. -/
def gapsFrom (since : Option Nat) : List Call → List Nat
  | [] => []
  | Call.diffusion_topic_update_set _ _ _ :: rest =>
    match since with
    | some g => g :: gapsFrom (some 0) rest
    | none => gapsFrom (some 0) rest
  | Call.sleep s :: rest => gapsFrom (since.map (· + s)) rest
  | _ :: rest => gapsFrom since rest

/-- The seconds of `sleep` separating consecutive `diffusion_topic_update_set` calls. -/
def updateGaps (calls : List Call) : List Nat :=
  gapsFrom none calls

/-- The arguments of the `diffusion_topic_update_set` calls of a trace, in order. -/
def updatesOf : List Call → List (String × DIFFUSION_DATATYPE × Bytes)
  | [] => []
  | Call.diffusion_topic_update_set path datatype update :: rest =>
    (path, datatype, update) :: updatesOf rest
  | _ :: rest => updatesOf rest

/-- A writer that always succeeds: it appends one byte holding the value modulo 256. -/
def sampleWrite (value : Int) (buf : Bytes) : Bool × Bytes :=
  (true, buf ++ [(value % 256).toNat])

/-- A writer that always fails and leaves the buffer alone. -/
def failingWrite (_value : Int) (buf : Bytes) : Bool × Bytes :=
  (false, buf)

/-- A stand-in for the values of `rand()`. -/
def sampleRand (i : Nat) : Int :=
  Int.ofNat (i * 7919 % 2147483648)

/-- The texts a trace writes to standard output with `printf`, in order. -/
def stdoutOf : List Call → List String
  | [] => []
  | Call.printf text :: rest => text :: stdoutOf rest
  | _ :: rest => stdoutOf rest

/-- The texts a trace writes to the error stream with `fprintf(stderr, ...)`, in order. -/
def stderrOf : List Call → List String
  | [] => []
  | Call.fprintf_stderr text :: rest => text :: stderrOf rest
  | _ :: rest => stderrOf rest

end Int64Topics

/-! ## `features/messaging/send-request-to-session.c` -/

namespace SendRequestToSession

open Diffusion
open Diffusion.HANDLER_RESULT Diffusion.DIFFUSION_DATATYPE

/-- The command-line options `main` reads with `hash_get`. -/
structure Options where
  request_path : String
  request : String
  response : String
  deriving DecidableEq, Repr

/-- The handler `on_request`.  `response` is the value of the global `response`.
`read` is `read_diffusion_string_value`: the string it stores through `&request_val`, or
`none` when it fails and leaves `request_val` as it was declared, uninitialised.  The
handler does not look at the result of the read, so after a failed read it hands the
uninitialised pointer to `printf` and `free`; the result `none` stands for that undefined
behaviour, in which nothing is known about the calls that follow.  `write` is
`write_diffusion_string_value` (its flag, which the handler ignores, and the buffer
contents after the call). -/
def on_request (response : String) (read : Bytes → Option String)
    (write : String → Bytes → Bool × Bytes) (session : SESSION_T) (_request_path : String)
    (_request_datatype : DIFFUSION_DATATYPE) (request : Bytes)
    (handle : DIFFUSION_RESPONDER_HANDLE_T) : Option HandlerRun :=
  match read request with
  | none => none
  | some request_val =>
    let response_buf := (write response []).2
    some { calls := [Call.printf ("Request received: " ++ request_val ++ "\n"),
                     Call.diffusion_respond_to_request session handle response_buf],
           status := HANDLER_SUCCESS }

/-- The handler `on_response`; as in `on_request`, `none` stands for the undefined
behaviour of printing and freeing the uninitialised `response_val` after a failed read. -/
def on_response (read : Bytes → Option String) (_response_datatype : DIFFUSION_DATATYPE)
    (response : Bytes) : Option HandlerRun :=
  match read response with
  | none => none
  | some response_val =>
    some { calls := [Call.printf ("Response received: " ++ response_val ++ "\n\n")],
           status := HANDLER_SUCCESS }

/-- The loop `while (counter <= 120)` of `main`, entered with the given `counter`. -/
def send_loop (session : SESSION_T) (params : SEND_REQUEST_TO_SESSION_PARAMS_T)
    (counter : Nat) : List Call :=
  if counter ≤ 120 then
    Call.printf ("Sending request.. #" ++ toString counter ++ "\n")
      :: Call.send_request_to_session session params
      :: Call.sleep 1
      :: send_loop session params (counter + 1)
  else []
termination_by 121 - counter

/-- The parameters `main` builds for `send_request_to_session`. -/
def main_params (session : SESSION_T) (request_path : String) (request : Bytes) :
    SEND_REQUEST_TO_SESSION_PARAMS_T :=
  { recipient_session := session.id,
    path := request_path,
    request := request,
    request_datatype := DATATYPE_STRING,
    response_datatype := DATATYPE_STRING }

/-- The function `main`.  `options` is `none` when `parse_cmdline` failed or help was
asked for; `session` is the result of `session_create`.  The global `response` is set to
`options.response` before the request stream is registered. -/
def main (write : String → Bytes → Bool × Bytes) (options : Option Options)
    (session : Except String SESSION_T) : MainRun :=
  match options with
  | none => { calls := [Call.show_usage], exit := EXIT_CODE.EXIT_FAILURE }
  | some options =>
    let request_path := options.request_path
    match session with
    | .error message =>
      { calls := [Call.fprintf_stderr "TEST: Failed to create session\n",
                  Call.fprintf_stderr ("ERR : " ++ message ++ "\n")],
        exit := EXIT_CODE.EXIT_FAILURE }
    | .ok session =>
      let request_data := options.request
      let request : Bytes := (write request_data []).2
      let params := main_params session request_path request
      { calls :=
          Call.set_request_stream request_path DATATYPE_STRING DATATYPE_STRING
            :: send_loop session params 1
            ++ [Call.session_close session, Call.session_free session],
        exit := EXIT_CODE.EXIT_SUCCESS }

/-- One inbound request as the SDK hands it to the request handler. -/
structure InboundRequest where
  request_path : String
  request_datatype : DIFFUSION_DATATYPE
  request : Bytes
  handle : DIFFUSION_RESPONDER_HANDLE_T
  deriving DecidableEq, Repr

/-- The calls made when the SDK invokes `on_request` for each inbound request in turn;
`none` as soon as one invocation has undefined behaviour. -/
def serve (response : String) (read : Bytes → Option String)
    (write : String → Bytes → Bool × Bytes) (session : SESSION_T) :
    List InboundRequest → Option (List Call)
  | [] => some []
  | r :: rest =>
    match on_request response read write session r.request_path r.request_datatype r.request
        r.handle with
    | none => none
    | some run =>
      match serve response read write session rest with
      | none => none
      | some calls => some (run.calls ++ calls)

/-- The arguments of the `diffusion_respond_to_request` calls of a trace, in order. -/
def responsesOf : List Call → List (SESSION_T × DIFFUSION_RESPONDER_HANDLE_T × Bytes)
  | [] => []
  | Call.diffusion_respond_to_request session handle response :: rest =>
    (session, handle, response) :: responsesOf rest
  | _ :: rest => responsesOf rest

/-- The arguments of the `send_request_to_session` calls of a trace, in order. -/
def sendsOf : List Call → List (SESSION_T × SEND_REQUEST_TO_SESSION_PARAMS_T)
  | [] => []
  | Call.send_request_to_session session params :: rest => (session, params) :: sendsOf rest
  | _ :: rest => sendsOf rest

/-- A string writer used to run the program on concrete data: one byte per character. -/
def sampleWriteString (s : String) (buf : Bytes) : Bool × Bytes :=
  (true, buf ++ s.toList.map Char.toNat)

/-- A string reader used to run the program on concrete data: it accepts the payloads
whose bytes are all ASCII characters other than NUL and rejects every other payload. -/
def sampleReadString (b : Bytes) : Option String :=
  if b.all (fun x => 0 < x && x < 128) then some (String.mk (b.map Char.ofNat)) else none

/-- The default options of the example. -/
def defaultOptions : Options :=
  { request_path := "echo",
    request := "hello client request!",
    response := "hello client response!" }

/-- The calls of one pass through the body of the send loop of `main`, with the value
`counter` has in that pass. -/
def send_iteration (session : SESSION_T) (params : SEND_REQUEST_TO_SESSION_PARAMS_T)
    (counter : Nat) : List Call :=
  [Call.printf ("Sending request.. #" ++ toString counter ++ "\n"),
   Call.send_request_to_session session params,
   Call.sleep 1]

/-- Whether a call is a `session_close`. -/
def isSessionClose : Call → Bool
  | Call.session_close _ => true
  | _ => false

end SendRequestToSession

/-! ## `features/topic_views/topic-views-get.c` -/

namespace TopicViewsGet

open Diffusion
open Diffusion.TOPIC_TYPE

/-- The function `strlen`: the number of bytes of the text before its terminating NUL. -/
def strlen (s : String) : Nat :=
  s.utf8ByteSize

/-- The function `sprintf` writing `text` into a buffer of `capacity` bytes obtained from
`calloc`: the buffer holds `text` when `text` and its terminating NUL fit, and the call
overruns the buffer (`none`) when they do not. -/
def sprintf (capacity : Nat) (text : String) : Option String :=
  if strlen text + 1 ≤ capacity then some text else none

/-- The function `create_topic_and_topic_view`; `none` stands for a buffer overrun in one
of its two `sprintf` calls.  `buf_sprintf` grows its buffer as needed. -/
def create_topic_and_topic_view (_session : SESSION_T)
    (root_topic_path topic_name view_name : String) : Option (List Call) :=
  match sprintf (strlen root_topic_path + strlen topic_name + 2)
      (root_topic_path ++ "/" ++ topic_name) with
  | none => none
  | some topic_path =>
    match sprintf (strlen view_name + 7) ("views/" ++ view_name) with
    | none => none
    | some topic_view_path =>
      let topic_view_spec := "map " ++ topic_path ++ " to " ++ topic_view_path
      some [Call.add_topic_from_specification topic_path TOPIC_TYPE_STRING,
            Call.sleep 5,
            Call.diffusion_topic_views_create_topic_view view_name topic_view_spec,
            Call.sleep 5]

/-- The whitespace characters of the C locale (`isspace`): space and the controls
tab, line feed, vertical tab, form feed, carriage return. -/
def isspace (c : Char) : Bool :=
  c.toNat == 32 || (9 ≤ c.toNat && c.toNat ≤ 13)

/-- The control characters of the C locale (`iscntrl`). -/
def iscntrl (c : Char) : Bool :=
  c.toNat < 32 || c.toNat == 127

/-- Splitting on whitespace: `cur` holds the characters of the token being read, last
character first. -/
def splitWs (cur : List Char) : List Char → List String
  | [] => if cur.isEmpty then [] else [String.mk cur.reverse]
  | c :: rest =>
    if isspace c then
      if cur.isEmpty then splitWs [] rest else String.mk cur.reverse :: splitWs [] rest
    else splitWs (c :: cur) rest

/-- The whitespace-delimited tokens of a text. -/
def tokens (text : String) : List String :=
  splitWs [] text.toList

/-- A path string as the grammar wants it: non-empty and free of control characters. -/
def isPath (s : String) : Bool :=
  !s.isEmpty && s.toList.all (fun c => !iscntrl c)

/-- Modelled from the spec: the grammar of a topic-view specification text (§4.2),
`map <sourcePath> to <viewPath>`, whitespace-delimited tokens, both paths non-empty
strings without control characters.  The result is the pair of paths, `none` for a text
outside the grammar. -/
def parseMapping (text : String) : Option (String × String) :=
  match tokens text with
  | [m, sourcePath, t, viewPath] =>
    if m == "map" && t == "to" && isPath sourcePath && isPath viewPath then
      some (sourcePath, viewPath)
    else none
  | _ => none

/-- A well-formed name: non-empty, without whitespace and control characters. -/
def isName (s : String) : Bool :=
  !s.isEmpty && s.toList.all (fun c => !isspace c && !iscntrl c)

end TopicViewsGet

/-! ## The value codec of the SDK -/

namespace ValueCodec

open Diffusion
open Diffusion.DIFFUSION_DATATYPE

/-- Modelled from the spec: the error kinds of `decode` (§4.1). -/
inductive DecodeError
  | TypeMismatch
  | Truncated
  | Malformed
  deriving DecidableEq, Repr

/-- Modelled from the spec: the tag byte that opens the payload of a value of the
declared type (§4.1 speaks of "the declared type's tag"). -/
def typeTag : DIFFUSION_DATATYPE → Nat
  | DATATYPE_INT64 => 1
  | DATATYPE_STRING => 2

/-- The `width` low-order bytes of `x`, least significant first. -/
def toBytesLE : Nat → Nat → List Nat
  | 0, _ => []
  | width + 1, x => x % 256 :: toBytesLE width (x / 256)

/-- The number whose bytes, least significant first, are given. -/
def ofBytesLE : List Nat → Nat
  | [] => 0
  | b :: bs => b + 256 * ofBytesLE bs

/-- Modelled from the spec: `encode` for signed 64-bit integers (§4.1): the tag followed
by the eight bytes of the two's complement representation, most significant first. -/
def encodeInt64 (v : Int) : Bytes :=
  typeTag DATATYPE_INT64 :: (toBytesLE 8 (v % 18446744073709551616).toNat).reverse

/-- Modelled from the spec: `decode` for signed 64-bit integers (§4.1); it fails when the
tag is not that of the type (`TypeMismatch`), when bytes are missing (`Truncated`) and
when there are too many bytes or a value that is no byte (`Malformed`). -/
def decodeInt64 : Bytes → Except DecodeError Int
  | [] => .error DecodeError.Truncated
  | tag :: body =>
    if tag ≠ typeTag DATATYPE_INT64 then .error DecodeError.TypeMismatch
    else if body.length < 8 then .error DecodeError.Truncated
    else if 8 < body.length then .error DecodeError.Malformed
    else if body.any (fun b => 256 ≤ b) then .error DecodeError.Malformed
    else
      let u := ofBytesLE body.reverse
      .ok (if u < 9223372036854775808 then Int.ofNat u
           else Int.ofNat u - 18446744073709551616)

/-- A C string: bytes, none of them NUL. -/
def isCString (s : List Nat) : Bool :=
  s.all (fun b => 0 < b && b < 256)

/-- Modelled from the spec: `encode` for strings (§4.1): the tag followed by the bytes of
the text. -/
def encodeString (s : List Nat) : Bytes :=
  typeTag DATATYPE_STRING :: s

/-- Modelled from the spec: `decode` for strings (§4.1). -/
def decodeString : Bytes → Except DecodeError (List Nat)
  | [] => .error DecodeError.Truncated
  | tag :: body =>
    if tag ≠ typeTag DATATYPE_STRING then .error DecodeError.TypeMismatch
    else if isCString body then .ok body
    else .error DecodeError.Malformed

/-- The description the SDK gives for a decode error. -/
def describe : DecodeError → DIFFUSION_API_ERROR
  | DecodeError.TypeMismatch => { description := "type mismatch" }
  | DecodeError.Truncated => { description := "truncated value" }
  | DecodeError.Malformed => { description := "malformed value" }

/-- Modelled from the spec: the SDK function `write_diffusion_int64_value`, absent from
the examples, as `encode` of §4.1 appended to the buffer; it always succeeds. -/
def write_diffusion_int64_value (value : Int) (buf : Bytes) : Bool × Bytes :=
  (true, buf ++ encodeInt64 value)

/-- Modelled from the spec: the SDK function `read_diffusion_int64_value`, absent from
the examples, as `decode` of §4.1. -/
def read_diffusion_int64_value (value : Bytes) : Except DIFFUSION_API_ERROR Int :=
  match decodeInt64 value with
  | .ok v => .ok v
  | .error e => .error (describe e)

/-- Modelled from the spec: the SDK function `write_diffusion_string_value`, absent from
the examples, as `encode` of §4.1 appended to the buffer. -/
def write_diffusion_string_value (value : List Nat) (buf : Bytes) : Bool × Bytes :=
  (true, buf ++ encodeString value)

/-- Modelled from the spec: the SDK function `read_diffusion_string_value`, absent from
the examples, as `decode` of §4.1. -/
def read_diffusion_string_value (value : Bytes) : Except DIFFUSION_API_ERROR (List Nat) :=
  match decodeString value with
  | .ok s => .ok s
  | .error e => .error (describe e)

end ValueCodec

/-! ## The subscription registry and dispatcher of the SDK -/

namespace Dispatcher

open Diffusion ValueCodec
open Diffusion.DIFFUSION_DATATYPE

/-- Modelled from the spec: a typed value as the value codec decodes it (§2, §4.1). -/
inductive Value
  | int64 (v : Int)
  | string (s : List Nat)
  deriving DecidableEq, Repr

/-- Modelled from the spec: `decode` with a declared value type (§4.1, §4.3). -/
def decodeAs : DIFFUSION_DATATYPE → Bytes → Except DecodeError Value
  | DATATYPE_INT64, bytes =>
    match decodeInt64 bytes with
    | .ok v => .ok (Value.int64 v)
    | .error e => .error e
  | DATATYPE_STRING, bytes =>
    match decodeString bytes with
    | .ok s => .ok (Value.string s)
    | .error e => .error e

/-- Modelled from the spec: a Subscription binds a selector to a value-stream handler and
a declared value type (§3); the handler is identified by the subscription id. -/
structure Subscription where
  id : Nat
  selector : String
  valueType : DIFFUSION_DATATYPE
  deriving DecidableEq, Repr

/-- Modelled from the spec: the stored previous value for each (subscription, topic path)
pair (§4.3), absent before the first delivery. -/
abbrev Store := Nat → String → Option Value

/-- Storing `new` as the previous value of one (subscription, topic path) pair. -/
def store (st : Store) (subscription : Nat) (topicPath : String) (new : Value) : Store :=
  fun s p => if s = subscription ∧ p = topicPath then some new else st s p

/-- Modelled from the spec: the registry of active subscriptions with its table of
previous values (§4.3, §5). -/
structure Registry where
  subscriptions : List Subscription
  nextId : Nat
  previous : Store

/-- The registry before any subscription. -/
def emptyRegistry : Registry :=
  { subscriptions := [], nextId := 0, previous := fun _ _ => none }

/-- Modelled from the spec: `subscribe(selector, valueType, handler) -> SubscriptionId`
(§4.3); it registers the handler under a fresh id. -/
def subscribe (r : Registry) (selector : String) (valueType : DIFFUSION_DATATYPE) :
    Registry × Nat :=
  ({ r with
      subscriptions := r.subscriptions ++
        [{ id := r.nextId, selector := selector, valueType := valueType }],
      nextId := r.nextId + 1 },
   r.nextId)

/-- What the dispatcher invokes: the value handler of a subscription with
(previous, new), or its error path with the decode error. -/
inductive Delivery
  | value (subscription : Nat) (topicPath : String) (previous : Option Value) (new : Value)
  | error (subscription : Nat) (topicPath : String) (e : DecodeError)
  deriving DecidableEq, Repr

/-- Modelled from the spec: the part of `dispatch` done for one matching subscription
(§4.3): decode `newBytes` with the declared type; on failure invoke the error path and
leave the stored previous value alone; on success look up the stored previous value,
invoke the handler with (previous, new), then store `new`. -/
def deliver (decode : DIFFUSION_DATATYPE → Bytes → Except DecodeError Value)
    (topicPath : String) (newBytes : Bytes) (st : Store) (s : Subscription) :
    Store × Delivery :=
  match decode s.valueType newBytes with
  | .error e => (st, Delivery.error s.id topicPath e)
  | .ok new =>
    (store st s.id topicPath new, Delivery.value s.id topicPath (st s.id topicPath) new)

/-- Modelled from the spec: `dispatch` over the active subscriptions, in registration
order, delivering to every one whose selector matches `selectorMatched` (§4.3). -/
def dispatchTo (decode : DIFFUSION_DATATYPE → Bytes → Except DecodeError Value)
    (topicPath selectorMatched : String) (newBytes : Bytes) :
    Store → List Subscription → Store × List Delivery
  | st, [] => (st, [])
  | st, s :: rest =>
    if s.selector = selectorMatched then
      let step := deliver decode topicPath newBytes st s
      let others := dispatchTo decode topicPath selectorMatched newBytes step.1 rest
      (others.1, step.2 :: others.2)
    else dispatchTo decode topicPath selectorMatched newBytes st rest

/-- Modelled from the spec: `dispatch(topicPath, selectorMatched, newBytes)`, invoked once
per inbound update (§4.3). -/
def dispatch (decode : DIFFUSION_DATATYPE → Bytes → Except DecodeError Value)
    (r : Registry) (topicPath selectorMatched : String) (newBytes : Bytes) :
    Registry × List Delivery :=
  let result := dispatchTo decode topicPath selectorMatched newBytes r.previous r.subscriptions
  ({ r with previous := result.1 }, result.2)

/-- One inbound update as the transport hands it to the dispatcher. -/
structure Update where
  topicPath : String
  selectorMatched : String
  newBytes : Bytes
  deriving DecidableEq, Repr

/-- Dispatching the inbound updates in the order the transport delivered them. -/
def run (decode : DIFFUSION_DATATYPE → Bytes → Except DecodeError Value) :
    Registry → List Update → Registry × List Delivery
  | r, [] => (r, [])
  | r, u :: rest =>
    let first := dispatch decode r u.topicPath u.selectorMatched u.newBytes
    let others := run decode first.1 rest
    (others.1, first.2 ++ others.2)

/-- The (previous, new) pairs with which the value handler of one subscription was
invoked for one topic path, in order. -/
def observed (subscription : Nat) (topicPath : String) :
    List Delivery → List (Option Value × Value)
  | [] => []
  | Delivery.value s p previous new :: rest =>
    if s = subscription ∧ p = topicPath then
      (previous, new) :: observed subscription topicPath rest
    else observed subscription topicPath rest
  | Delivery.error _ _ _ :: rest => observed subscription topicPath rest

/-- The updates that concern one subscription and one topic path. -/
def updatesFor (s : Subscription) (topicPath : String) (updates : List Update) :
    List Update :=
  updates.filter (fun u => u.topicPath = topicPath ∧ u.selectorMatched = s.selector)

/-- A registry with two subscriptions: id 0 on "a/b" for int64 values and id 1 on "c"
for strings. -/
def sampleRegistry : Registry :=
  (subscribe (subscribe emptyRegistry "a/b" DATATYPE_INT64).1 "c" DATATYPE_STRING).1

/-- Inbound updates: 10 and 42 for "a/b" with an update for "c" in between. -/
def sampleUpdates : List Update :=
  [{ topicPath := "a/b", selectorMatched := "a/b", newBytes := encodeInt64 10 },
   { topicPath := "c", selectorMatched := "c", newBytes := encodeString [104] },
   { topicPath := "a/b", selectorMatched := "a/b", newBytes := encodeInt64 42 }]

end Dispatcher

/-! ## Theorems -/

namespace Int64Topics

open Diffusion
open Diffusion.HANDLER_RESULT Diffusion.DIFFUSION_DATATYPE Diffusion.TOPIC_TYPE

/-- C1: when the new value decodes to `n`, `on_value` with an absent old value writes
exactly the new-value report for `n`; with an old value that decodes to `m` it writes the
old-value report for `m` and then the new-value report for `n`.  For the updates
(absent, 10) then (10, 42) the reports are: new 10; old 10, new 42. -/
theorem on_value_reports (read : Bytes → Except DIFFUSION_API_ERROR Int)
    (new_value : Bytes) (n : Int) (hn : read new_value = .ok n) :
    (on_value read none new_value).calls = [newReport n] ∧
    (∀ old m, read old = .ok m →
      (on_value read (some old) new_value).calls = [oldReport m, newReport n]) ∧
    (∀ b10 b42, read b10 = .ok 10 → read b42 = .ok 42 →
      (on_value read none b10).calls ++ (on_value read (some b10) b42).calls
        = [Call.printf "New int64 value: 10\n\n",
           Call.printf "Old int64 value: 10\n",
           Call.printf "New int64 value: 42\n\n"]) := by
  refine ⟨?_, ?_, ?_⟩
  · simp [on_value, hn, newReport]
  · intro old m hm
    simp [on_value, hn, hm, newReport, oldReport]
  · intro b10 b42 h10 h42
    simp only [on_value, h10, h42, List.nil_append, List.cons_append]
    decide

/-- Witness for C1 with the sample reader on the payloads `[10]` and `[42]`. -/
theorem on_value_reports_witness :
    sampleRead [42] = .ok 42 ∧
    (on_value sampleRead none [42]).calls = [newReport 42] ∧
    (on_value sampleRead (some [10]) [42]).calls = [oldReport 10, newReport 42] ∧
    (on_value sampleRead none [10]).calls ++ (on_value sampleRead (some [10]) [42]).calls
        = [Call.printf "New int64 value: 10\n\n",
           Call.printf "Old int64 value: 10\n",
           Call.printf "New int64 value: 42\n\n"] :=
  ⟨rfl, (on_value_reports sampleRead [42] 42 rfl).1,
    (on_value_reports sampleRead [42] 42 rfl).2.1 [10] 10 rfl,
    (on_value_reports sampleRead [42] 42 rfl).2.2 [10] [42] rfl rfl⟩

theorem update_loop_step (write : Int → Bytes → Bool × Bytes) (rand : Nat → Int)
    (p : String) (i : Nat) (h : i ≤ 120) :
    update_loop write rand p i =
      dispatch_int64_update write (rand i) p
        ++ Call.sleep sleep_timeout :: update_loop write rand p (i + 1) := by
  rw [update_loop]
  simp [h]

theorem update_loop_done (write : Int → Bytes → Bool × Bytes) (rand : Nat → Int)
    (p : String) (i : Nat) (h : 120 < i) :
    update_loop write rand p i = [] := by
  rw [update_loop]
  simp [Nat.not_le.mpr h]

theorem updatesOf_append (xs ys : List Call) :
    updatesOf (xs ++ ys) = updatesOf xs ++ updatesOf ys := by
  induction xs with
  | nil => rfl
  | cons x xs ih => cases x <;> simp [updatesOf, ih]

theorem updatesOf_dispatch (write : Int → Bytes → Bool × Bytes) (v : Int) (p : String) :
    updatesOf (dispatch_int64_update write v p) =
      if (write v []).1 then [(p, DATATYPE_INT64, (write v []).2)] else [] := by
  unfold dispatch_int64_update
  rcases h : write v [] with ⟨ok, buf⟩
  cases ok <;> simp [updatesOf, h]

theorem updatesOf_update_loop (write : Int → Bytes → Bool × Bytes) (rand : Nat → Int)
    (p : String) (n i : Nat) (h : i + n = 121) :
    updatesOf (update_loop write rand p i) =
      ((List.range' i n).filter (fun k => (write (rand k) []).1)).map
        (fun k => (p, DATATYPE_INT64, (write (rand k) []).2)) := by
  induction n generalizing i with
  | zero => rw [update_loop_done _ _ _ _ (by omega)]; rfl
  | succ n ih =>
    rw [update_loop_step _ _ _ _ (by omega), updatesOf_append, updatesOf_dispatch]
    simp only [updatesOf, List.range'_succ, List.filter_cons]
    rw [ih (i + 1) (by omega)]
    by_cases hw : (write (rand i) []).1 = true <;> simp [hw]


theorem gapsFrom_update_loop (write : Int → Bytes → Bool × Bytes) (rand : Nat → Int)
    (hw : ∀ i, (write (rand i) []).1 = true) (p : String) (session : SESSION_T)
    (n i : Nat) (h : i + n = 121) (since : Option Nat) :
    gapsFrom since (update_loop write rand p i ++ tear_down session) =
      if n = 0 then [] else since.toList ++ List.replicate (n - 1) 2 := by
  induction n generalizing i since with
  | zero =>
    rw [update_loop_done _ _ _ _ (by omega)]
    simp [tear_down, gapsFrom]
  | succ n ih =>
    rw [update_loop_step _ _ _ _ (by omega)]
    have hstep : ∀ (u : Bytes) (rest : List Call),
        gapsFrom since ([Call.diffusion_topic_update_set p DATATYPE_INT64 u, Call.sleep 1]
          ++ Call.sleep sleep_timeout :: rest ++ tear_down session)
        = since.toList ++ gapsFrom (some 2) (rest ++ tear_down session) := by
      intro u rest
      cases since <;> rfl
    have hd : dispatch_int64_update write (rand i) p =
        [Call.diffusion_topic_update_set p DATATYPE_INT64 (write (rand i) []).2,
          Call.sleep 1] := by
      unfold dispatch_int64_update
      have := hw i
      rcases h : write (rand i) [] with ⟨ok, buf⟩
      rw [h] at this
      simp only at this
      subst this
      simp only [h]
    rw [hd]
    rw [hstep, ih (i + 1) (by omega) (some 2)]
    cases n <;> cases since <;> simp [List.replicate_succ]

theorem main_calls (write : Int → Bytes → Bool × Bytes) (rand : Nat → Int)
    (session : SESSION_T) :
    (main write rand true (.ok session)).calls =
      [Call.add_topic_from_specification "int64-example" TOPIC_TYPE_INT64,
       Call.sleep 5,
       Call.add_stream "int64-example" DATATYPE_INT64,
       Call.subscribe "int64-example",
       Call.sleep 5]
      ++ update_loop write rand "int64-example" 1
      ++ tear_down session := rfl

theorem updatesOf_main (write : Int → Bytes → Bool × Bytes) (rand : Nat → Int)
    (session : SESSION_T) :
    updatesOf (main write rand true (.ok session)).calls =
      ((List.range' 1 120).filter (fun i => (write (rand i) []).1)).map
        (fun i => ("int64-example", DATATYPE_INT64, (write (rand i) []).2)) := by
  rw [main_calls, updatesOf_append, updatesOf_append,
    updatesOf_update_loop write rand "int64-example" 120 1 rfl]
  simp [updatesOf, tear_down]

/-- C5: with a writer that succeeds on every value drawn, two seconds of `sleep` (one in
`dispatch_int64_update`, one of `sleep_timeout` in the loop body) separate each
`diffusion_topic_update_set` call of `main` from the next one, not one. -/
theorem update_gaps_are_two_seconds (write : Int → Bytes → Bool × Bytes) (rand : Nat → Int)
    (session : SESSION_T) (hw : ∀ i, (write (rand i) []).1 = true) :
    updateGaps (main write rand true (.ok session)).calls = List.replicate 119 2 := by
  rw [main_calls, updateGaps, List.append_assoc]
  simp only [List.cons_append, List.nil_append, gapsFrom, Option.map]
  exact gapsFrom_update_loop write rand hw "int64-example" session 120 1 rfl none

/-- Witness for C5 with the sample writer and the sample random values. -/
theorem update_gaps_are_two_seconds_witness :
    (∀ i, (sampleWrite (sampleRand i) []).1 = true) ∧
    updateGaps (main sampleWrite sampleRand true (.ok { id := 1 })).calls
      = List.replicate 119 2 :=
  ⟨fun _ => rfl, update_gaps_are_two_seconds sampleWrite sampleRand { id := 1 } (fun _ => rfl)⟩

/-- C6 as stated fails: with a writer that fails, `main` runs its loop to the end without
a single `diffusion_topic_update_set` call. -/
theorem update_count_counterexample :
    (updatesOf (main failingWrite sampleRand true (.ok { id := 1 })).calls).length ≠ 120 := by
  rw [updatesOf_main]
  simp [failingWrite]

/-- C6 (amended): `main` terminates with `EXIT_SUCCESS` after its loop has run for
i = 1, ..., 120; `diffusion_topic_update_set` is called once, for topic path
"int64-example" with datatype INT64, in each iteration whose
`write_diffusion_int64_value` succeeds and in no other; when every write succeeds that is
exactly 120 calls, one for each i from 1 to 120. -/
theorem main_dispatches_updates (write : Int → Bytes → Bool × Bytes) (rand : Nat → Int)
    (session : SESSION_T) :
    (main write rand true (.ok session)).exit = EXIT_CODE.EXIT_SUCCESS ∧
    updatesOf (main write rand true (.ok session)).calls =
      ((List.range' 1 120).filter (fun i => (write (rand i) []).1)).map
        (fun i => ("int64-example", DATATYPE_INT64, (write (rand i) []).2)) ∧
    ((∀ i, (write (rand i) []).1 = true) →
      updatesOf (main write rand true (.ok session)).calls =
        (List.range' 1 120).map
          (fun i => ("int64-example", DATATYPE_INT64, (write (rand i) []).2)) ∧
      (updatesOf (main write rand true (.ok session)).calls).length = 120) := by
  refine ⟨by simp [main], updatesOf_main write rand session, ?_⟩
  intro hw
  have hf : (List.range' 1 120).filter (fun i => (write (rand i) []).1) = List.range' 1 120 :=
    List.filter_eq_self.mpr (fun i _ => hw i)
  rw [updatesOf_main, hf]
  exact ⟨rfl, by simp⟩

/-- Witness for C6 with the sample writer, which always succeeds. -/
theorem main_dispatches_updates_witness :
    (∀ i, (sampleWrite (sampleRand i) []).1 = true) ∧
    (updatesOf (main sampleWrite sampleRand true (.ok { id := 1 })).calls).length = 120 :=
  ⟨fun _ => rfl,
    ((main_dispatches_updates sampleWrite sampleRand { id := 1 }).2.2 (fun _ => rfl)).2⟩

/-- C10: `on_value` returns `HANDLER_SUCCESS` on every input, and a value that fails to
decode is reported by one line on the error stream and by nothing on standard output:
the calls made are exactly those listed here for each outcome of the two reads. -/
theorem on_value_always_succeeds (read : Bytes → Except DIFFUSION_API_ERROR Int)
    (old_value : Option Bytes) (new_value : Bytes) :
    (on_value read old_value new_value).status = HANDLER_SUCCESS ∧
    (on_value read old_value new_value).calls =
      match old_value.map read, read new_value with
      | some (.error e), _ =>
        [Call.fprintf_stderr ("Error parsing int64 old value: " ++ e.description ++ "\n")]
      | some (.ok m), .error e =>
        [oldReport m,
         Call.fprintf_stderr ("Error parsing int64 new value: " ++ e.description ++ "\n")]
      | some (.ok m), .ok n => [oldReport m, newReport n]
      | none, .error e =>
        [Call.fprintf_stderr ("Error parsing int64 new value: " ++ e.description ++ "\n")]
      | none, .ok n => [newReport n] := by
  cases old_value with
  | none =>
    cases hn : read new_value <;>
      simp [on_value, hn, newReport, get_diffusion_api_error_description]
  | some old =>
    cases ho : read old <;> cases hn : read new_value <;>
      simp [on_value, ho, hn, newReport, oldReport, get_diffusion_api_error_description]

/-- C12: when the old value is present and fails to decode, `on_value` makes one call
only, the error line for the old value: nothing goes to standard output, neither an
old-value nor a new-value report, the error stream gets exactly that one line, and the
outcome is the same for every new value, also one that would decode. -/
theorem on_value_old_error_returns_early (read : Bytes → Except DIFFUSION_API_ERROR Int)
    (old : Bytes) (e : DIFFUSION_API_ERROR) (ho : read old = .error e) (new_value : Bytes) :
    (on_value read (some old) new_value).calls =
      [Call.fprintf_stderr ("Error parsing int64 old value: " ++ e.description ++ "\n")] ∧
    stdoutOf (on_value read (some old) new_value).calls = [] ∧
    stderrOf (on_value read (some old) new_value).calls =
      ["Error parsing int64 old value: " ++ e.description ++ "\n"] ∧
    (∀ other : Bytes, on_value read (some old) other = on_value read (some old) new_value) := by
  have h : ∀ b : Bytes, on_value read (some old) b =
      { calls := [Call.fprintf_stderr
          ("Error parsing int64 old value: " ++ e.description ++ "\n")],
        status := HANDLER_SUCCESS } := by
    intro b
    simp [on_value, ho, get_diffusion_api_error_description]
  refine ⟨by rw [h], by rw [h]; rfl, by rw [h]; rfl, fun other => by rw [h, h]⟩

/-- Witness for C12: the two-byte old value `[1, 2]` is rejected by the sample reader
while the new value `[42]` decodes. -/
theorem on_value_old_error_returns_early_witness :
    sampleRead [1, 2] = .error { description := "not an int64" } ∧
    sampleRead [42] = .ok 42 ∧
    stdoutOf (on_value sampleRead (some [1, 2]) [42]).calls = [] ∧
    stderrOf (on_value sampleRead (some [1, 2]) [42]).calls =
      ["Error parsing int64 old value: not an int64\n"] :=
  ⟨rfl, rfl,
    (on_value_old_error_returns_early sampleRead [1, 2] { description := "not an int64" } rfl
      [42]).2.1,
    (on_value_old_error_returns_early sampleRead [1, 2] { description := "not an int64" } rfl
      [42]).2.2.1⟩

end Int64Topics

namespace SendRequestToSession

open Diffusion
open Diffusion.HANDLER_RESULT Diffusion.DIFFUSION_DATATYPE

theorem send_loop_step (session : SESSION_T) (params : SEND_REQUEST_TO_SESSION_PARAMS_T)
    (counter : Nat) (h : counter ≤ 120) :
    send_loop session params counter =
      Call.printf ("Sending request.. #" ++ toString counter ++ "\n")
        :: Call.send_request_to_session session params
        :: Call.sleep 1
        :: send_loop session params (counter + 1) := by
  rw [send_loop]
  simp [h]

theorem send_loop_done (session : SESSION_T) (params : SEND_REQUEST_TO_SESSION_PARAMS_T)
    (counter : Nat) (h : 120 < counter) :
    send_loop session params counter = [] := by
  rw [send_loop]
  simp [Nat.not_le.mpr h]

theorem sendsOf_append (xs ys : List Call) :
    sendsOf (xs ++ ys) = sendsOf xs ++ sendsOf ys := by
  induction xs with
  | nil => rfl
  | cons x xs ih => cases x <;> simp [sendsOf, ih]

theorem sendsOf_send_loop (session : SESSION_T) (params : SEND_REQUEST_TO_SESSION_PARAMS_T)
    (n counter : Nat) (h : counter + n = 121) :
    sendsOf (send_loop session params counter) = List.replicate n (session, params) := by
  induction n generalizing counter with
  | zero => rw [send_loop_done _ _ _ (by omega)]; rfl
  | succ n ih =>
    rw [send_loop_step _ _ _ (by omega)]
    simp [sendsOf, ih (counter + 1) (by omega), List.replicate_succ]

theorem sendsOf_main (write : String → Bytes → Bool × Bytes) (options : Options)
    (session : SESSION_T) :
    sendsOf (main write (some options) (.ok session)).calls =
      List.replicate 120
        (session, main_params session options.request_path (write options.request []).2) := by
  have hm : (main write (some options) (.ok session)).calls =
      Call.set_request_stream options.request_path DATATYPE_STRING DATATYPE_STRING
        :: send_loop session
            (main_params session options.request_path (write options.request []).2) 1
        ++ [Call.session_close session, Call.session_free session] := rfl
  rw [hm]
  simp [sendsOf, sendsOf_append, sendsOf_send_loop session _ 120 1 rfl]

theorem responsesOf_append (xs ys : List Call) :
    responsesOf (xs ++ ys) = responsesOf xs ++ responsesOf ys := by
  induction xs with
  | nil => rfl
  | cons x xs ih => cases x <;> simp [responsesOf, ih]

theorem responsesOf_on_request (response : String) (read : Bytes → Option String)
    (write : String → Bytes → Bool × Bytes) (session : SESSION_T) (path : String)
    (datatype : DIFFUSION_DATATYPE) (request : Bytes)
    (handle : DIFFUSION_RESPONDER_HANDLE_T) :
    (on_request response read write session path datatype request handle).map
        (fun run => responsesOf run.calls)
      = (read request).map (fun _ => [(session, handle, (write response []).2)]) := by
  cases h : read request <;> simp [on_request, h, responsesOf]

theorem responsesOf_serve (response : String) (read : Bytes → Option String)
    (write : String → Bytes → Bool × Bytes) (session : SESSION_T)
    (reqs : List InboundRequest) :
    (serve response read write session reqs).map responsesOf =
      if reqs.all (fun r => (read r.request).isSome) then
        some (reqs.map (fun r => (session, r.handle, (write response []).2)))
      else none := by
  induction reqs with
  | nil => rfl
  | cons r rest ih =>
    cases hr : read r.request with
    | none => simp [serve, on_request, hr]
    | some request_val =>
      cases hs : serve response read write session rest with
      | none =>
        rw [hs] at ih
        by_cases hall : rest.all (fun r => (read r.request).isSome) = true
        · rw [if_pos hall] at ih
          simp at ih
        · simp [serve, on_request, hr, hs, hall]
      | some calls =>
        rw [hs] at ih
        by_cases hall : rest.all (fun r => (read r.request).isSome) = true
        · rw [if_pos hall] at ih
          simp only [Option.map_some', Option.some.injEq] at ih
          simp [serve, on_request, hr, hs, hall, responsesOf_append, responsesOf, ih]
        · rw [if_neg hall] at ih
          simp at ih

/-- C3: what `on_request` does where the claim wants one response for every invocation.
An invocation whose `read_diffusion_string_value` fails has undefined behaviour (it prints
and frees the uninitialised `request_val`), so no response is guaranteed; an invocation
whose read succeeds calls `diffusion_respond_to_request` exactly once, on the handle it
was given and with the buffer written from the configured response string.  Over a
sequence of inbound requests the responses are one per request, in order, when every read
succeeds, and undefined otherwise.  With the sample reader the request payload `[255]`
on handle 4 is such a failing input. -/
theorem on_request_response_or_undefined (response : String) (read : Bytes → Option String)
    (write : String → Bytes → Bool × Bytes) (session : SESSION_T)
    (reqs : List InboundRequest) :
    (∀ (path : String) (datatype : DIFFUSION_DATATYPE) (request : Bytes)
        (handle : DIFFUSION_RESPONDER_HANDLE_T),
      (on_request response read write session path datatype request handle).map
          (fun run => responsesOf run.calls)
        = (read request).map (fun _ => [(session, handle, (write response []).2)])) ∧
    (serve response read write session reqs).map responsesOf =
      (if reqs.all (fun r => (read r.request).isSome) then
        some (reqs.map (fun r => (session, r.handle, (write response []).2)))
      else none) ∧
    on_request "ok" sampleReadString sampleWriteString { id := 1 } "echo" DATATYPE_STRING
      [255] 4 = none ∧
    (on_request "ok" sampleReadString sampleWriteString { id := 1 } "echo" DATATYPE_STRING
      [104, 105] 4).map (fun run => responsesOf run.calls)
      = some [({ id := 1 }, 4, [111, 107])] :=
  ⟨responsesOf_on_request response read write session,
    responsesOf_serve response read write session reqs, by decide, by decide⟩

/-- The recipient is not another session: run with the default options on the session
with id 7, `main` sends from session 7 to recipient 7, the sender itself. -/
theorem recipient_is_another_session_counterexample :
    ¬ (∀ sp ∈ sendsOf (main sampleWriteString (some defaultOptions) (.ok { id := 7 })).calls,
        sp.2.recipient_session ≠ sp.1.id) := by
  rw [sendsOf_main]
  intro h
  exact h ({ id := 7 }, main_params { id := 7 } "echo"
    (sampleWriteString "hello client request!" []).2) (by simp [defaultOptions]) rfl

/-- C4: what `main` does where the claim wants another client as recipient: each of the
120 requests it sends with `send_request_to_session` is sent on `session` and addressed to
`session->id`, the sending session itself. -/
theorem main_sends_to_own_session (write : String → Bytes → Bool × Bytes)
    (options : Options) (session : SESSION_T) :
    (sendsOf (main write (some options) (.ok session)).calls).map
        (fun sp => (sp.1, sp.2.recipient_session))
      = List.replicate 120 (session, session.id) := by
  rw [sendsOf_main]
  simp [main_params]

theorem send_loop_eq (session : SESSION_T) (params : SEND_REQUEST_TO_SESSION_PARAMS_T)
    (n counter : Nat) (h : counter + n = 121) :
    send_loop session params counter =
      (List.range' counter n).flatMap (send_iteration session params) := by
  induction n generalizing counter with
  | zero => rw [send_loop_done _ _ _ (by omega)]; rfl
  | succ n ih =>
    rw [send_loop_step _ _ _ (by omega), ih (counter + 1) (by omega), List.range'_succ,
      List.flatMap_cons]
    rfl

theorem send_iterations_keep_open (session : SESSION_T)
    (params : SEND_REQUEST_TO_SESSION_PARAMS_T) (counters : List Nat) :
    ∀ c ∈ counters.flatMap (send_iteration session params), (!isSessionClose c) = true := by
  intro c hc
  rw [List.mem_flatMap] at hc
  obtain ⟨k, _, hk⟩ := hc
  simp only [send_iteration, List.mem_cons, List.mem_singleton, List.not_mem_nil,
    or_false] at hk
  rcases hk with rfl | rfl | rfl <;> rfl

/-- C11: the send loop of `main` terminates; the calls of `main` are the registration of
the request stream, then for counter = 1, 2, ..., 120 in increasing order the line
"Sending request.. #counter", one `send_request_to_session` and one `sleep(1)`, then
`session_close` and `session_free`.  So `send_request_to_session` is called exactly 120
times, every time on the same session with the same parameters (recipient, path, request
payload, STRING request and response datatypes), all 120 sends come before the
`session_close`, and no send follows it. -/
theorem send_loop_sends_120_times (write : String → Bytes → Bool × Bytes)
    (options : Options) (session : SESSION_T) :
    (main write (some options) (.ok session)).exit = EXIT_CODE.EXIT_SUCCESS ∧
    (main write (some options) (.ok session)).calls =
      Call.set_request_stream options.request_path DATATYPE_STRING DATATYPE_STRING
        :: (List.range' 1 120).flatMap (send_iteration session
            (main_params session options.request_path (write options.request []).2))
        ++ [Call.session_close session, Call.session_free session] ∧
    sendsOf (main write (some options) (.ok session)).calls =
      List.replicate 120
        (session,
         { recipient_session := session.id,
           path := options.request_path,
           request := (write options.request []).2,
           request_datatype := DATATYPE_STRING,
           response_datatype := DATATYPE_STRING }) ∧
    (sendsOf ((main write (some options) (.ok session)).calls.takeWhile
        (fun c => !isSessionClose c))).length = 120 ∧
    (main write (some options) (.ok session)).calls.dropWhile (fun c => !isSessionClose c)
      = [Call.session_close session, Call.session_free session] := by
  have hm : (main write (some options) (.ok session)).calls =
      (Call.set_request_stream options.request_path DATATYPE_STRING DATATYPE_STRING
        :: (List.range' 1 120).flatMap (send_iteration session
            (main_params session options.request_path (write options.request []).2)))
        ++ [Call.session_close session, Call.session_free session] := by
    rw [← send_loop_eq session _ 120 1 rfl]
    rfl
  have hopen : ∀ c ∈ (Call.set_request_stream options.request_path DATATYPE_STRING
        DATATYPE_STRING
        :: (List.range' 1 120).flatMap (send_iteration session
            (main_params session options.request_path (write options.request []).2))),
      (!isSessionClose c) = true := by
    intro c hc
    rcases List.mem_cons.mp hc with rfl | hc
    · rfl
    · exact send_iterations_keep_open session _ _ c hc
  have hs := sendsOf_main write options session
  refine ⟨rfl, hm, hs, ?_, ?_⟩
  · rw [hm, List.takeWhile_append_of_pos hopen]
    rw [hm, sendsOf_append] at hs
    have : List.takeWhile (fun c => !isSessionClose c)
        [Call.session_close session, Call.session_free session] = [] := rfl
    rw [this, List.append_nil]
    have h2 : sendsOf [Call.session_close session, Call.session_free session] = [] := rfl
    rw [h2, List.append_nil] at hs
    rw [hs, List.length_replicate]
  · rw [hm, List.dropWhile_append_of_pos hopen]
    rfl

end SendRequestToSession

namespace TopicViewsGet
open Diffusion
open Diffusion.TOPIC_TYPE


theorem strlen_append (a b : String) : strlen (a ++ b) = strlen a + strlen b := by
  cases a; cases b
  show String.utf8Len (_ ++ _) = _
  exact String.utf8Len_append _ _

theorem splitWs_word (w : List Char) (hw : ∀ c ∈ w, isspace c = false) (cur rest : List Char) :
    splitWs cur (w ++ rest) = splitWs (w.reverse ++ cur) rest := by
  induction w generalizing cur with
  | nil => rfl
  | cons c w ih =>
    have hc : isspace c = false := hw c (List.mem_cons_self _ _)
    have hw2 : ∀ d ∈ w, isspace d = false := fun d hd => hw d (List.mem_cons_of_mem _ hd)
    simp [splitWs, hc, ih hw2]

theorem splitWs_word_space (w : List Char) (hw : ∀ c ∈ w, isspace c = false) (hne : w ≠ [])
    (rest : List Char) :
    splitWs [] (w ++ Char.ofNat 32 :: rest) = String.mk w :: splitWs [] rest := by
  rw [splitWs_word w hw]
  have : (w.reverse ++ ([] : List Char)).isEmpty = false := by
    cases w with
    | nil => exact absurd rfl hne
    | cons c w => simp
  have hs : isspace (Char.ofNat 32) = true := by decide
  simp [splitWs, hs, hne]

theorem splitWs_word_end (w : List Char) (hw : ∀ c ∈ w, isspace c = false) (hne : w ≠ []) :
    splitWs [] w = [String.mk w] := by
  have := splitWs_word w hw [] []
  rw [List.append_nil] at this
  rw [this]
  have : (w.reverse ++ ([] : List Char)).isEmpty = false := by
    cases w with
    | nil => exact absurd rfl hne
    | cons c w => simp
  simp [splitWs, hne]


theorem isEmpty_false_iff (s : String) : s.isEmpty = false ↔ s.toList ≠ [] := by
  rw [← Bool.not_eq_true, String.isEmpty_iff]
  constructor
  · intro h hnil
    apply h
    apply String.ext
    exact hnil
  · intro h he
    apply h
    rw [he]
    rfl

theorem isName_spec (s : String) (h : isName s = true) :
    s.toList ≠ [] ∧ (∀ c ∈ s.toList, isspace c = false) ∧ isPath s = true := by
  simp only [isName, isPath, Bool.and_eq_true, Bool.not_eq_true', List.all_eq_true,
    String.isEmpty_iff] at h ⊢
  obtain ⟨hne, hall⟩ := h
  refine ⟨?_, fun c hc => (hall c hc).1, ?_, fun c hc => (hall c hc).2⟩
  · exact (isEmpty_false_iff s).mp hne
  · exact hne


theorem tokens_four_words (a b c d : String)
    (ha : a.toList ≠ [] ∧ ∀ x ∈ a.toList, isspace x = false)
    (hb : b.toList ≠ [] ∧ ∀ x ∈ b.toList, isspace x = false)
    (hc : c.toList ≠ [] ∧ ∀ x ∈ c.toList, isspace x = false)
    (hd : d.toList ≠ [] ∧ ∀ x ∈ d.toList, isspace x = false) :
    tokens (a ++ " " ++ b ++ " " ++ c ++ " " ++ d) = [a, b, c, d] := by
  have htext : (a ++ " " ++ b ++ " " ++ c ++ " " ++ d).toList =
      a.toList ++ Char.ofNat 32 :: (b.toList ++ Char.ofNat 32 ::
        (c.toList ++ Char.ofNat 32 :: d.toList)) := by
    simp only [String.toList, String.data_append, List.append_assoc]
    rfl
  rw [tokens, htext, splitWs_word_space _ ha.2 ha.1, splitWs_word_space _ hb.2 hb.1,
    splitWs_word_space _ hc.2 hc.1, splitWs_word_end _ hd.2 hd.1]
  rfl

theorem toList_append (a b : String) : (a ++ b).toList = a.toList ++ b.toList :=
  String.data_append a b

theorem isPath_append (a b : String) (ha : isPath a = true) (hb : isPath b = true) :
    isPath (a ++ b) = true := by
  simp only [isPath, Bool.and_eq_true, Bool.not_eq_true', List.all_eq_true] at ha hb ⊢
  refine ⟨?_, ?_⟩
  · rw [isEmpty_false_iff, toList_append]
    have := (isEmpty_false_iff a).mp ha.1
    intro h
    exact this (List.append_eq_nil.mp h).1
  · intro c hc
    rw [toList_append, List.mem_append] at hc
    rcases hc with hc | hc
    · exact ha.2 c hc
    · exact hb.2 c hc

/-- C2: for non-empty root path, topic name and view name without whitespace and control
characters, `create_topic_and_topic_view` overruns neither buffer and passes to
`diffusion_topic_views_create_topic_view` the view name and exactly the text
"map " ++ root ++ "/" ++ topic ++ " to views/" ++ view; that text splits on whitespace
into the four tokens "map", root/topic, "to", "views/" ++ view, and reads under the
grammar `map <sourcePath> to <viewPath>` as source path root/topic and view path
"views/" ++ view. -/
theorem create_topic_view_specification (session : SESSION_T) (root topic view : String)
    (hr : isName root = true) (ht : isName topic = true) (hv : isName view = true) :
    create_topic_and_topic_view session root topic view =
      some [Call.add_topic_from_specification (root ++ "/" ++ topic) TOPIC_TYPE_STRING,
            Call.sleep 5,
            Call.diffusion_topic_views_create_topic_view view
              ("map " ++ root ++ "/" ++ topic ++ " to views/" ++ view),
            Call.sleep 5] ∧
    tokens ("map " ++ root ++ "/" ++ topic ++ " to views/" ++ view)
      = ["map", root ++ "/" ++ topic, "to", "views/" ++ view] ∧
    parseMapping ("map " ++ root ++ "/" ++ topic ++ " to views/" ++ view)
      = some (root ++ "/" ++ topic, "views/" ++ view) := by
  obtain ⟨hr1, hr2, hr3⟩ := isName_spec root hr
  obtain ⟨ht1, ht2, ht3⟩ := isName_spec topic ht
  obtain ⟨hv1, hv2, hv3⟩ := isName_spec view hv
  have htext : "map " ++ root ++ "/" ++ topic ++ " to views/" ++ view
      = "map" ++ " " ++ (root ++ "/" ++ topic) ++ " " ++ "to" ++ " " ++ ("views/" ++ view) := by
    apply String.ext
    simp only [String.data_append, List.append_assoc]
    rfl
  have hsrc : (root ++ "/" ++ topic).toList ≠ [] ∧
      ∀ x ∈ (root ++ "/" ++ topic).toList, isspace x = false := by
    refine ⟨?_, ?_⟩
    · simp [toList_append, hr1]
    · intro x hx
      simp only [toList_append, List.mem_append] at hx
      rcases hx with (hx | hx) | hx
      · exact hr2 x hx
      · have : x = Char.ofNat 47 := by simpa [String.toList] using hx
        subst this
        decide
      · exact ht2 x hx
  have hview : ("views/" ++ view).toList ≠ [] ∧
      ∀ x ∈ ("views/" ++ view).toList, isspace x = false := by
    refine ⟨?_, ?_⟩
    · simp [toList_append, hv1]
    · intro x hx
      simp only [toList_append, List.mem_append] at hx
      rcases hx with hx | hx
      · revert x
        decide
      · exact hv2 x hx
  have htok : tokens ("map " ++ root ++ "/" ++ topic ++ " to views/" ++ view)
      = ["map", root ++ "/" ++ topic, "to", "views/" ++ view] := by
    rw [htext]
    exact tokens_four_words "map" _ "to" _ ⟨by decide, by decide⟩ hsrc ⟨by decide, by decide⟩
      hview
  refine ⟨?_, htok, ?_⟩
  · have h1 : strlen (root ++ "/" ++ topic) + 1 ≤ strlen root + strlen topic + 2 := by
      rw [strlen_append, strlen_append]
      have : strlen "/" = 1 := by decide
      omega
    have h2 : strlen ("views/" ++ view) + 1 ≤ strlen view + 7 := by
      rw [strlen_append]
      have : strlen "views/" = 6 := by decide
      omega
    simp only [create_topic_and_topic_view, sprintf, h1, h2, if_true]
    have e : "map " ++ (root ++ "/" ++ topic) ++ " to " ++ ("views/" ++ view)
        = "map " ++ root ++ "/" ++ topic ++ " to views/" ++ view := by
      apply String.ext
      simp only [String.data_append, List.append_assoc]
      rfl
    rw [e]
  · have hp1 : isPath (root ++ "/" ++ topic) = true :=
      isPath_append _ _ (isPath_append _ _ hr3 (by decide)) ht3
    have hp2 : isPath ("views/" ++ view) = true := isPath_append _ _ (by decide) hv3
    simp [parseMapping, htok, hp1, hp2]

/-- Witness for C2: the first call of `main` with the default topic option. -/
theorem create_topic_view_specification_witness :
    isName "source" = true ∧ isName "topic_path_example_1" = true ∧ isName "view_1" = true ∧
    parseMapping ("map " ++ "source" ++ "/" ++ "topic_path_example_1" ++ " to views/" ++ "view_1")
      = some ("source" ++ "/" ++ "topic_path_example_1", "views/" ++ "view_1") :=
  ⟨by decide, by decide, by decide,
    (create_topic_view_specification { id := 1 } "source" "topic_path_example_1" "view_1"
      (by decide) (by decide) (by decide)).2.2⟩

end TopicViewsGet

namespace ValueCodec

open Diffusion
open Diffusion.DIFFUSION_DATATYPE


theorem toBytesLE_length (width x : Nat) : (toBytesLE width x).length = width := by
  induction width generalizing x with
  | zero => rfl
  | succ w ih => simp [toBytesLE, ih]

theorem toBytesLE_lt (width x : Nat) : ∀ b ∈ toBytesLE width x, b < 256 := by
  induction width generalizing x with
  | zero => simp [toBytesLE]
  | succ w ih =>
    intro b hb
    simp only [toBytesLE, List.mem_cons] at hb
    rcases hb with hb | hb
    · omega
    · exact ih _ b hb

theorem ofBytesLE_toBytesLE (width x : Nat) :
    ofBytesLE (toBytesLE width x) = x % 256 ^ width := by
  induction width generalizing x with
  | zero => simp [toBytesLE, ofBytesLE, Nat.mod_one]
  | succ w ih =>
    simp only [toBytesLE, ofBytesLE, ih]
    rw [pow_succ, Nat.mul_comm (256 ^ w) 256, Nat.mod_mul]

theorem decodeInt64_encodeInt64 (v : Int) (hlo : -9223372036854775808 ≤ v)
    (hhi : v < 9223372036854775808) : decodeInt64 (encodeInt64 v) = .ok v := by
  have hlen : ((toBytesLE 8 (v % 18446744073709551616).toNat).reverse).length = 8 := by
    simp [toBytesLE_length]
  have hany : ((toBytesLE 8 (v % 18446744073709551616).toNat).reverse).any
      (fun b => decide (256 ≤ b)) = false := by
    rw [List.any_eq_false]
    intro b hb
    have := toBytesLE_lt 8 _ b (List.mem_reverse.mp hb)
    simp
    omega
  have hu : ofBytesLE ((toBytesLE 8 (v % 18446744073709551616).toNat).reverse).reverse
      = (v % 18446744073709551616).toNat := by
    rw [List.reverse_reverse, ofBytesLE_toBytesLE]
    apply Nat.mod_eq_of_lt
    have : (256 : Nat) ^ 8 = 18446744073709551616 := by norm_num
    omega
  simp only [encodeInt64, decodeInt64, hlen, hany, hu, typeTag]
  simp
  split <;> omega


theorem decodeString_encodeString (s : List Nat) (hs : isCString s = true) :
    decodeString (encodeString s) = .ok s := by
  simp [decodeString, encodeString, hs]

/-- C7: in the codec modelled from §4.1, for every int64 value `v` the bytes written by
`write_diffusion_int64_value` are read back by `read_diffusion_int64_value` as `v`, and
for every C string `s` the bytes written by `write_diffusion_string_value` are read back
by `read_diffusion_string_value` as `s`; both writes succeed. -/
theorem value_codec_round_trip (v : Int) (hlo : -9223372036854775808 ≤ v)
    (hhi : v < 9223372036854775808) (s : List Nat) (hs : isCString s = true) :
    (write_diffusion_int64_value v []).1 = true ∧
    read_diffusion_int64_value (write_diffusion_int64_value v []).2 = .ok v ∧
    (write_diffusion_string_value s []).1 = true ∧
    read_diffusion_string_value (write_diffusion_string_value s []).2 = .ok s := by
  refine ⟨rfl, ?_, rfl, ?_⟩
  · simp only [write_diffusion_int64_value, read_diffusion_int64_value, List.nil_append,
      decodeInt64_encodeInt64 v hlo hhi]
  · simp only [write_diffusion_string_value, read_diffusion_string_value, List.nil_append,
      decodeString_encodeString s hs]

/-- Witness for C7: the least int64 value and the bytes of "hi". -/
theorem value_codec_round_trip_witness :
    (-9223372036854775808 : Int) ≤ -9223372036854775808 ∧
    (-9223372036854775808 : Int) < 9223372036854775808 ∧
    isCString [104, 105] = true ∧
    read_diffusion_int64_value (write_diffusion_int64_value (-9223372036854775808) []).2
      = .ok (-9223372036854775808) ∧
    read_diffusion_string_value (write_diffusion_string_value [104, 105] []).2
      = .ok [104, 105] :=
  ⟨by decide, by decide, by decide,
    (value_codec_round_trip (-9223372036854775808) (by decide) (by decide) [104, 105]
      (by decide)).2.1,
    (value_codec_round_trip (-9223372036854775808) (by decide) (by decide) [104, 105]
      (by decide)).2.2.2⟩

end ValueCodec

namespace Dispatcher

open Diffusion ValueCodec
open Diffusion.DIFFUSION_DATATYPE


theorem observed_append (sub : Nat) (p : String) (xs ys : List Delivery) :
    observed sub p (xs ++ ys) = observed sub p xs ++ observed sub p ys := by
  induction xs with
  | nil => rfl
  | cons x xs ih =>
    cases x with
    | value s q previous new =>
      by_cases h : s = sub ∧ q = p <;> simp [observed, h, ih]
    | error s q e => simp [observed, ih]

/-- A dispatch in which no matching subscription delivers to (`sub`, `p`) shows that pair
nothing and leaves its stored previous value alone. -/
theorem dispatchTo_other (decode : DIFFUSION_DATATYPE → Bytes → Except DecodeError Value)
    (tp sel : String) (bytes : Bytes) (sub : Nat) (p : String) (subs : List Subscription)
    (st : Store) (h : ∀ t ∈ subs, t.selector = sel → tp = p → t.id ≠ sub) :
    observed sub p (dispatchTo decode tp sel bytes st subs).2 = [] ∧
    (dispatchTo decode tp sel bytes st subs).1 sub p = st sub p := by
  induction subs generalizing st with
  | nil => exact ⟨rfl, rfl⟩
  | cons t rest ih =>
    have hrest : ∀ t' ∈ rest, t'.selector = sel → tp = p → t'.id ≠ sub :=
      fun t' ht' => h t' (List.mem_cons_of_mem _ ht')
    by_cases hsel : t.selector = sel
    · have hne : ¬ (t.id = sub ∧ tp = p) := fun hh => h t (List.mem_cons_self _ _) hsel hh.2 hh.1
      simp only [dispatchTo, hsel, if_true]
      cases hd : decode t.valueType bytes with
      | error e =>
        simp only [deliver, hd, observed]
        exact ih st hrest
      | ok new =>
        simp only [deliver, hd, observed, hne, if_false]
        refine ⟨(ih _ hrest).1, ?_⟩
        rw [(ih _ hrest).2]
        have hne2 : ¬ (sub = t.id ∧ p = tp) := fun hh => hne ⟨hh.1.symm, hh.2.symm⟩
        simp [store, hne2]
    · simp only [dispatchTo, hsel, if_false]
      exact ih st hrest

/-- A dispatch for topic path `p` matching the selector of the registered subscription
`s`, whose bytes decode to `u`, invokes the handler of `s` once, with the stored previous
value and `u`, and stores `u`. -/
theorem dispatchTo_self (decode : DIFFUSION_DATATYPE → Bytes → Except DecodeError Value)
    (bytes : Bytes) (s : Subscription) (p : String) (u : Value)
    (hu : decode s.valueType bytes = .ok u) (subs : List Subscription) (st : Store)
    (hs : s ∈ subs) (hid : (subs.map (fun t => t.id)).Nodup) :
    observed s.id p (dispatchTo decode p s.selector bytes st subs).2 = [(st s.id p, u)] ∧
    (dispatchTo decode p s.selector bytes st subs).1 s.id p = some u := by
  induction subs generalizing st with
  | nil => exact absurd hs (List.not_mem_nil _)
  | cons t rest ih =>
    rw [List.map_cons, List.nodup_cons] at hid
    by_cases hts : t = s
    · subst hts
      have hrest : ∀ t' ∈ rest, t'.selector = t.selector → p = p → t'.id ≠ t.id := by
        intro t' ht' _ _ heq
        exact hid.1 (heq ▸ List.mem_map_of_mem (fun t => t.id) ht')
      have ho := dispatchTo_other decode p t.selector bytes t.id p rest
        (store st t.id p u) hrest
      simp only [dispatchTo, if_true, deliver, hu, observed, and_self, ho.1, ho.2]
      simp [store]
    · have hmem : s ∈ rest := by
        rcases List.mem_cons.mp hs with h | h
        · exact absurd h.symm hts
        · exact h
      have hne : t.id ≠ s.id := by
        intro heq
        exact hid.1 (heq ▸ List.mem_map_of_mem (fun t => t.id) hmem)
      by_cases hsel : t.selector = s.selector
      · simp only [dispatchTo, hsel, if_true]
        cases hd : decode t.valueType bytes with
        | error e =>
          simp only [deliver, hd, observed]
          exact ih st hmem hid.2
        | ok new =>
          have := ih (store st t.id p new) hmem hid.2
          simp [deliver, hd, observed, hne, Ne.symm hne, this.1, this.2, store]
      · simp only [dispatchTo, hsel, if_false]
        exact ih st hmem hid.2

theorem run_chain (decode : DIFFUSION_DATATYPE → Bytes → Except DecodeError Value)
    (s : Subscription) (p : String) (updates : List Update) :
    ∀ (r : Registry) (us : List Value) (prev : Option Value),
      s ∈ r.subscriptions → (r.subscriptions.map (fun t => t.id)).Nodup →
      r.previous s.id p = prev →
      (updatesFor s p updates).map (fun u => decode s.valueType u.newBytes)
        = us.map Except.ok →
      observed s.id p (run decode r updates).2 = List.zip (prev :: us.map some) us := by
  induction updates with
  | nil =>
    intro r us prev _ _ _ hus
    cases us with
    | nil => rfl
    | cons u us => simp [updatesFor] at hus
  | cons e rest ih =>
    intro r us prev hs hid hprev hus
    simp only [run, observed_append]
    by_cases hrel : e.topicPath = p ∧ e.selectorMatched = s.selector
    · have hf : updatesFor s p (e :: rest) = e :: updatesFor s p rest := by
        simp [updatesFor, hrel]
      rw [hf] at hus
      cases us with
      | nil => simp at hus
      | cons u us =>
        simp only [List.map_cons, List.cons.injEq] at hus
        have h1 := dispatchTo_self decode e.newBytes s p u hus.1 r.subscriptions r.previous
          hs hid
        have hd : dispatch decode r e.topicPath e.selectorMatched e.newBytes
            = ({ r with previous :=
                  (dispatchTo decode p s.selector e.newBytes r.previous r.subscriptions).1 },
               (dispatchTo decode p s.selector e.newBytes r.previous r.subscriptions).2) := by
          simp [dispatch, hrel.1, hrel.2]
        rw [hd]
        simp only [h1.1, hprev]
        rw [ih { r with previous :=
            (dispatchTo decode p s.selector e.newBytes r.previous r.subscriptions).1 }
          us (some u) hs hid h1.2 hus.2]
        rfl
    · have hf : updatesFor s p (e :: rest) = updatesFor s p rest := by
        simp [updatesFor, hrel]
      rw [hf] at hus
      have hother : ∀ t ∈ r.subscriptions, t.selector = e.selectorMatched →
          e.topicPath = p → t.id ≠ s.id := by
        intro t ht hsel htp heq
        have hts : t = s := List.inj_on_of_nodup_map hid ht hs heq
        exact hrel ⟨htp, by rw [← hsel, hts]⟩
      have h1 := dispatchTo_other decode e.topicPath e.selectorMatched e.newBytes s.id p
        r.subscriptions r.previous hother
      have h2 : observed s.id p
          (dispatch decode r e.topicPath e.selectorMatched e.newBytes).2 = [] := h1.1
      rw [h2, List.nil_append]
      exact ih _ us prev hs hid (h1.2.trans hprev) hus

/-- C8: in the dispatcher modelled from §4.3, for a registered subscription `s` and a
topic path `p` with no update delivered yet, if the inbound updates for `p` that match the
selector of `s` decode, in transport order, to U1, ..., Un (other updates may be
interleaved), the value handler of `s` is invoked for `p` exactly n times: first with the
old value absent and new value U1, then for each k > 1 with old value U(k-1) and new
value Uk. -/
theorem previous_value_chaining
    (decode : DIFFUSION_DATATYPE → Bytes → Except DecodeError Value) (r : Registry)
    (s : Subscription) (p : String) (updates : List Update) (us : List Value)
    (hs : s ∈ r.subscriptions) (hid : (r.subscriptions.map (fun t => t.id)).Nodup)
    (h0 : r.previous s.id p = none)
    (hus : (updatesFor s p updates).map (fun u => decode s.valueType u.newBytes)
      = us.map Except.ok) :
    observed s.id p (run decode r updates).2 = List.zip (none :: us.map some) us ∧
    (observed s.id p (run decode r updates).2).length = us.length := by
  have h := run_chain decode s p updates r us none hs hid h0 hus
  refine ⟨h, ?_⟩
  rw [h]
  simp

/-- Witness for C8: the raw values 10 then 42 for "a/b" reach the handler of the
subscription on "a/b" as (absent, 10) then (10, 42). -/
theorem previous_value_chaining_witness :
    ({ id := 0, selector := "a/b", valueType := DATATYPE_INT64 } : Subscription)
      ∈ sampleRegistry.subscriptions ∧
    (sampleRegistry.subscriptions.map (fun t => t.id)).Nodup ∧
    sampleRegistry.previous 0 "a/b" = none ∧
    observed 0 "a/b" (run decodeAs sampleRegistry sampleUpdates).2
      = [(none, Value.int64 10), (some (Value.int64 10), Value.int64 42)] :=
  ⟨by decide, by decide, rfl,
    (previous_value_chaining decodeAs sampleRegistry
      { id := 0, selector := "a/b", valueType := DATATYPE_INT64 } "a/b" sampleUpdates
      [Value.int64 10, Value.int64 42] (by decide) (by decide) rfl rfl).1⟩

end Dispatcher
